import Mathlib

/-!
Verification development for the go-exfat repository: a shallow embedding of
its two layers (the VHD container reader and the exFAT filesystem reader)
as executable Lean definitions, together with theorems settling the frozen
claims about them.

Modelling conventions:
* Go byte slices and Go strings are modelled as `List Nat`; a byte read site
  applies `% 256` (`byteVal`), mirroring the `uint8` type of the source data.
* The backing device (`io.ReaderAt` in `NewExFATFileSystem`) is modelled as a
  total function `Nat → Nat`, i.e. a device whose reads never fail; claims
  about successful operations are unaffected by dropping I/O failure.
* Go `while` loops that are not structurally bounded are embedded with an
  explicit fuel parameter; `none` marks a run that would diverge or panic in
  Go (each such site is commented).  The fuel supplied at every call site is
  proved (or commented) sufficient for all terminating Go runs.
* `uint32` arithmetic that can actually wrap in the source is reduced
  `% 4294967296` at the corresponding sites.
-/

namespace GoExfat

/-- A byte drawn from a Go `[]byte`: stored as `Nat`, reduced mod 256. -/
def byteVal (n : Nat) : Nat := n % 256

/-- Little-endian `binary.LittleEndian.Uint16` over a byte list. -/
def le16 (b : List Nat) (o : Nat) : Nat :=
  byteVal (b.getD o 0) + 256 * byteVal (b.getD (o + 1) 0)

/-- Little-endian `binary.LittleEndian.Uint32`. -/
def le32 (b : List Nat) (o : Nat) : Nat :=
  le16 b o + 65536 * le16 b (o + 2)

/-- Little-endian `binary.LittleEndian.Uint64`. -/
def le64 (b : List Nat) (o : Nat) : Nat :=
  le32 b o + 4294967296 * le32 b (o + 4)

/-- Big-endian `binary.BigEndian.Uint32` (VHD headers are big-endian). -/
def be32 (b : List Nat) (o : Nat) : Nat :=
  byteVal (b.getD (o + 3) 0) + 256 * (byteVal (b.getD (o + 2) 0) +
    256 * (byteVal (b.getD (o + 1) 0) + 256 * byteVal (b.getD o 0)))

/-- Big-endian `binary.BigEndian.Uint64`. -/
def be64 (b : List Nat) (o : Nat) : Nat :=
  be32 b (o + 4) + 4294967296 * be32 b o

/-- In-place slice write `data[off : off+chunk.len] = chunk` on a Go slice,
modelled functionally.  Callers establish `off + chunk.length ≤ l.length`. -/
def listWrite (l : List Nat) (off : Nat) (chunk : List Nat) : List Nat :=
  l.take off ++ chunk ++ l.drop (off + chunk.length)

theorem listWrite_length (l : List Nat) (off : Nat) (chunk : List Nat)
    (h : off + chunk.length ≤ l.length) :
    (listWrite l off chunk).length = l.length := by
  have hoff : off ≤ l.length := le_trans (Nat.le_add_right _ _) h
  simp [listWrite, Nat.min_eq_left hoff]
  omega

/-!
## Timestamp decoding (`exfatTimeToTime`, src/filesystem.go)

`time.Time` is external to the repository; the decoder is modelled as
producing the civil-time components handed to `time.Date`, with the Go
zero `time.Time` modelled as `none`.
-/

/-- The civil-time components `exfatTimeToTime` passes to `time.Date`. -/
structure DateTime where
  year : Nat
  month : Nat
  day : Nat
  hour : Nat
  minute : Nat
  second : Nat
deriving DecidableEq

/-- `exfatTimeToTime` (src/filesystem.go): decode a 32-bit exFAT timestamp,
returning `none` (the zero `time.Time`) for `0` or out-of-range fields. -/
def exfatTimeToTime (ts : Nat) : Option DateTime :=
  if ts = 0 then none
  else
    let date := ts >>> 16
    let tm := ts &&& 0xFFFF
    let year := ((date >>> 9) &&& 0x7F) + 1980
    let month := (date >>> 5) &&& 0x0F
    let day := date &&& 0x1F
    let hour := (tm >>> 11) &&& 0x1F
    let minute := (tm >>> 5) &&& 0x3F
    let second := (tm &&& 0x1F) * 2
    if month < 1 ∨ 12 < month ∨ day < 1 ∨ 31 < day ∨
        23 < hour ∨ 59 < minute ∨ 59 < second then none
    else some ⟨year, month, day, hour, minute, second⟩

theorem mask_shift_16_11_5 (a : Nat) :
    ((a &&& 0xFFFF) >>> 11) &&& 0x1F = (a >>> 11) &&& 0x1F := by
  have h16 : (0xFFFF : Nat) = 2 ^ 16 - 1 := by norm_num
  have h5 : (0x1F : Nat) = 2 ^ 5 - 1 := by norm_num
  rw [h16, h5, Nat.and_pow_two_sub_one_eq_mod, Nat.and_pow_two_sub_one_eq_mod,
    Nat.and_pow_two_sub_one_eq_mod, Nat.shiftRight_eq_div_pow,
    Nat.shiftRight_eq_div_pow]
  have hmul : (2 : Nat) ^ 11 * 2 ^ 5 = 2 ^ 16 := by norm_num
  rw [Nat.div_mod_eq_mod_mul_div, Nat.div_mod_eq_mod_mul_div, hmul,
    Nat.mod_mod_of_dvd _ dvd_rfl]

theorem mask_shift_16_5_6 (a : Nat) :
    ((a &&& 0xFFFF) >>> 5) &&& 0x3F = (a >>> 5) &&& 0x3F := by
  have h16 : (0xFFFF : Nat) = 2 ^ 16 - 1 := by norm_num
  have h6 : (0x3F : Nat) = 2 ^ 6 - 1 := by norm_num
  rw [h16, h6, Nat.and_pow_two_sub_one_eq_mod, Nat.and_pow_two_sub_one_eq_mod,
    Nat.and_pow_two_sub_one_eq_mod, Nat.shiftRight_eq_div_pow,
    Nat.shiftRight_eq_div_pow]
  have hmul : (2 : Nat) ^ 5 * 2 ^ 6 = 2 ^ 11 := by norm_num
  rw [Nat.div_mod_eq_mod_mul_div, Nat.div_mod_eq_mod_mul_div, hmul,
    Nat.mod_mod_of_dvd _ (by norm_num : (2 : Nat) ^ 11 ∣ 2 ^ 16)]

theorem mask_16_then_5 (a : Nat) : (a &&& 0xFFFF) &&& 0x1F = a &&& 0x1F := by
  have h16 : (0xFFFF : Nat) = 2 ^ 16 - 1 := by norm_num
  have h5 : (0x1F : Nat) = 2 ^ 5 - 1 := by norm_num
  rw [h16, h5, Nat.and_pow_two_sub_one_eq_mod, Nat.and_pow_two_sub_one_eq_mod,
    Nat.and_pow_two_sub_one_eq_mod,
    Nat.mod_mod_of_dvd _ (by norm_num : (2 : Nat) ^ 5 ∣ 2 ^ 16)]

theorem shift_16_9 (a : Nat) : (a >>> 16) >>> 9 = a >>> 25 :=
  (Nat.shiftRight_add a 16 9).symm

theorem shift_16_5 (a : Nat) : (a >>> 16) >>> 5 = a >>> 21 :=
  (Nat.shiftRight_add a 16 5).symm

/-- Claim C7: for every 32-bit exFAT timestamp `ts`: if `ts = 0`, or any
decoded component is out of range (month outside 1–12, day outside 1–31,
hour > 23, minute > 59, second > 59), the decoder returns the null
timestamp; otherwise it returns the civil time with
year = ((ts>>25)&0x7F)+1980, month = (ts>>21)&0x0F, day = (ts>>16)&0x1F,
hour = (ts>>11)&0x1F, minute = (ts>>5)&0x3F, second = (ts&0x1F)*2. -/
theorem exfatTimeToTime_spec (ts : Nat) :
    exfatTimeToTime ts =
      if ts = 0 ∨ (ts >>> 21) &&& 0x0F < 1 ∨ 12 < (ts >>> 21) &&& 0x0F ∨
          (ts >>> 16) &&& 0x1F < 1 ∨ 31 < (ts >>> 16) &&& 0x1F ∨
          23 < (ts >>> 11) &&& 0x1F ∨ 59 < (ts >>> 5) &&& 0x3F ∨
          59 < (ts &&& 0x1F) * 2 then none
      else some ⟨((ts >>> 25) &&& 0x7F) + 1980, (ts >>> 21) &&& 0x0F,
        (ts >>> 16) &&& 0x1F, (ts >>> 11) &&& 0x1F, (ts >>> 5) &&& 0x3F,
        (ts &&& 0x1F) * 2⟩ := by
  simp only [exfatTimeToTime]
  rw [mask_shift_16_11_5, mask_shift_16_5_6, mask_16_then_5, shift_16_9,
    shift_16_5]
  by_cases h0 : ts = 0
  · simp [h0]
  · simp only [h0, if_false, false_or]

/-!
## exFAT filesystem state (`ExFATFileSystem`, src/filesystem.go)

The Go struct fields actually consumed by the claimed operations.  `disk`
models the `vhd io.ReaderAt`; `rootCluster` is
`bootSector.FirstClusterOfRootDir`.  `bytesPerSector`/`sectorsPerCluster`
are only used to derive `bytesPerCluster` at mount and are omitted.
-/

structure ExFATFS where
  disk : Nat → Nat
  fat : List Nat
  bytesPerCluster : Nat
  clusterHeapStart : Nat
  totalClusters : Nat
  rootCluster : Nat

/-- A successful `vhd.ReadAt(data[·:·+n], off)`: `n` bytes from the device. -/
def diskRead (fs : ExFATFS) (off n : Nat) : List Nat :=
  (List.range n).map fun i => byteVal (fs.disk (off + i))

/-- `clusterToOffset` (src/filesystem.go). -/
def clusterToOffset (fs : ExFATFS) (cluster : Nat) : Nat :=
  if cluster < 2 then 0
  else fs.clusterHeapStart + (cluster - 2) * fs.bytesPerCluster

/-- `nextValidCluster` (src/filesystem.go).  `cluster + 1` is a `uint32`
increment, hence the `% 2^32`; the `uint32(len(fs.fat))` cast is dropped
because `readFAT` builds at most `2^32 / 4` entries. -/
def nextValidCluster (fs : ExFATFS) (cluster : Nat) : Nat :=
  if fs.fat.length ≤ cluster then (cluster + 1) % 4294967296
  else
    let next := fs.fat.getD cluster 0
    if next = 0xFFFFFFFF ∨ 0xFFFFFFF8 ≤ next ∨ next < 2 ∨ 0x10000000 < next
    then (cluster + 1) % 4294967296
    else next

/-- Errors surfaced by the modelled operations (`fmt.Errorf` sites). -/
inductive Err where
  | invalidCluster
  | pathNotFound
  | failedToResolve
  | isDirectory
  | notADirectory
deriving DecidableEq

/-- The `for cluster != EndOfClusterChain && offset < size` loop of
`readClusterChain` (src/filesystem.go).  `data` is the output buffer,
allocated by the caller as `size` zero bytes and written in place.  The
loop is fuel-bounded: with `bytesPerCluster ≥ 1` every iteration advances
`offset` by at least one byte, so `size + 1` fuel suffices; `none` marks a
run that would not terminate in Go (possible only when
`bytesPerCluster = 0`, i.e. a degenerate boot sector). -/
def chainLoop (fs : ExFATFS) (size : Nat) :
    Nat → Nat → Nat → List Nat → Option (List Nat)
  | 0, _, _, _ => none
  | fuel + 1, cluster, offset, data =>
    if cluster = 0xFFFFFFFF ∨ ¬ offset < size then some data
    else
      let clusterOffset := clusterToOffset fs cluster
      let readSize :=
        if size < offset + fs.bytesPerCluster then size - offset
        else fs.bytesPerCluster
      let data' := listWrite data offset (diskRead fs clusterOffset readSize)
      let cluster' := nextValidCluster fs cluster
      if fs.totalClusters ≤ cluster' then some data'
      else chainLoop fs size fuel cluster' (offset + readSize) data'

/-- `readClusterChain` (src/filesystem.go): size-0 early return, start
cluster validation, then the fuel-bounded chain walk over a zeroed buffer.
With `bytesPerCluster ≥ 1` the loop runs at most `size` iterations, so the
supplied fuel `size + 1` never cuts off a terminating Go run. -/
def readClusterChain (fs : ExFATFS) (startCluster size : Nat) :
    Option (Except Err (List Nat)) :=
  if size = 0 then some (.ok [])
  else if startCluster = 0 ∨ 0xFFFFFFF8 ≤ startCluster then
    some (.error .invalidCluster)
  else
    (chainLoop fs size (size + 1) startCluster 0 (List.replicate size 0)).map
      .ok

theorem chainLoop_length (fs : ExFATFS) (size : Nat) :
    ∀ fuel cluster offset data res, offset ≤ size → data.length = size →
      chainLoop fs size fuel cluster offset data = some res →
      res.length = size := by
  intro fuel
  induction fuel with
  | zero => intro _ _ _ _ _ _ h; simp [chainLoop] at h
  | succ n ih =>
    intro cluster offset data res hoff hlen h
    simp only [chainLoop] at h
    split at h
    · cases h; exact hlen
    · rename_i hc
      have hofflt : offset < size := by
        by_contra hx
        exact hc (Or.inr hx)
      set readSize :=
        if size < offset + fs.bytesPerCluster then size - offset
        else fs.bytesPerCluster with hrs
      -- the written chunk always fits: either `readSize = size - offset`
      -- or `offset + bytesPerCluster ≤ size`
      have hfit : offset + readSize ≤ size := by
        rw [hrs]; split <;> omega
      have hwlen : (listWrite data offset
          (diskRead fs (clusterToOffset fs cluster) readSize)).length = size := by
        rw [listWrite_length]
        · exact hlen
        · simpa [diskRead, hlen] using hfit
      split at h
      · cases h; exact hwlen
      · exact ih _ _ _ _ hfit hwlen h

theorem readClusterChain_length (fs : ExFATFS) (c n : Nat) (bs : List Nat)
    (h : readClusterChain fs c n = some (.ok bs)) : bs.length = n := by
  unfold readClusterChain at h
  split at h
  · rename_i h0
    simp at h
    simp [← h, h0]
  · split at h
    · simp at h
    · simp only [Option.map_eq_some'] at h
      obtain ⟨res, hres, heq⟩ := h
      cases heq
      have := chainLoop_length fs n (n + 1) c 0 (List.replicate n 0) bs
        (Nat.zero_le n) (by simp) hres
      exact this

/-!
## Directory entry parsing (src/filesystem.go)

Go strings are UTF-8 byte sequences; `string(utf16.Decode(...))` and
`fileName += namePart` below are modelled on `List Nat` of UTF-8 bytes.
-/

/-- `unicode/utf16.Decode`: UTF-16 code units to code points, pairing
surrogates and replacing unpaired surrogates with U+FFFD. -/
def utf16Decode : List Nat → List Nat
  | [] => []
  | [u] =>
    if u < 0xD800 ∨ 0xDFFF < u then [u] else [0xFFFD]
  | u :: v :: rest =>
    if u < 0xD800 ∨ 0xDFFF < u then u :: utf16Decode (v :: rest)
    else if u < 0xDC00 ∧ 0xDC00 ≤ v ∧ v < 0xE000 then
      (0x10000 + (u - 0xD800) * 0x400 + (v - 0xDC00)) :: utf16Decode rest
    else 0xFFFD :: utf16Decode (v :: rest)

/-- UTF-8 encoding of one code point (Go string conversion of a rune).
`utf16Decode` yields only valid non-surrogate code points ≤ 0x10FFFF. -/
def utf8EncodeChar (c : Nat) : List Nat :=
  if c < 0x80 then [c]
  else if c < 0x800 then [0xC0 + c / 64, 0x80 + c % 64]
  else if c < 0x10000 then
    [0xE0 + c / 4096, 0x80 + c / 64 % 64, 0x80 + c % 64]
  else
    [0xF0 + c / 262144, 0x80 + c / 4096 % 64, 0x80 + c / 64 % 64,
      0x80 + c % 64]

/-- Go `string(runes)`: concatenated UTF-8 encodings. -/
def utf8Encode (cs : List Nat) : List Nat := cs.flatMap utf8EncodeChar

/-- `strings.TrimRight(s, "\x00")`: NUL is a single-byte rune and UTF-8
continuation bytes are ≥ 0x80, so this drops exactly the trailing 0
bytes. -/
def trimRightZeros (s : List Nat) : List Nat :=
  (s.reverse.dropWhile (· = 0)).reverse

/-- The fields of `ExFATFileEntry` (type 0x85) consumed by the parsers:
`SecondaryCount` (offset 1), `FileAttributes` (offset 4, LE16) and
`LastModifiedTimestamp` (offset 12, LE32). -/
structure FileEntryRec where
  secondaryCount : Nat
  fileAttributes : Nat
  lastModifiedTimestamp : Nat

def parseFileEntryRec (s : List Nat) : FileEntryRec :=
  ⟨byteVal (s.getD 1 0), le16 s 4, le32 s 12⟩

/-- The fields of `ExFATFileInfoEntry` (stream extension, type 0xC0)
consumed by the parsers: `NameLength` (offset 3), `FirstCluster`
(offset 20, LE32) and `DataLength` (offset 24, LE64). -/
structure StreamExtRec where
  nameLength : Nat
  firstCluster : Nat
  dataLength : Nat

def parseStreamExtRec (s : List Nat) : StreamExtRec :=
  ⟨byteVal (s.getD 3 0), le32 s 20, le64 s 24⟩

/-- The 15 UTF-16LE code units of an `ExFATFileNameEntry` (type 0xC1):
`FileName[30]` starting at offset 2. -/
def parseNameUnits (s : List Nat) : List Nat :=
  (List.range 15).map fun j => le16 s (2 + 2 * j)

/-- The 32-byte slot `dirData[offset : offset+32]`. -/
def slot (dirData : List Nat) (offset : Nat) : List Nat :=
  (dirData.drop offset).take 32

/-- The file-name accumulation loop shared verbatim by `readDirectory` and
`readDirectoryEntries` (src/filesystem.go): up to `SecondaryCount - 1`
name slots, stopping early (without advancing `offset`) once the
accumulated UTF-8 byte length reaches `NameLength`.  Returns the
accumulated name bytes and the final `offset`. -/
def nameLoop (dirData : List Nat) (nameLength : Nat) :
    Nat → Nat → List Nat → (List Nat × Nat)
  | 0, offset, acc => (acc, offset)
  | k + 1, offset, acc =>
    if dirData.length < offset + 32 then (acc, offset)
    else
      let acc' := acc ++ utf8Encode (utf16Decode (parseNameUnits
        (slot dirData offset)))
      if nameLength ≤ acc'.length then (acc', offset)
      else nameLoop dirData nameLength k (offset + 32) acc'

/-- `fileName = TrimRight(...); if len(fileName) > nameLength { truncate }`
(both parsers). -/
def finishName (nameLength : Nat) (acc : List Nat) : List Nat :=
  let trimmed := trimRightZeros acc
  if nameLength < trimmed.length then trimmed.take nameLength else trimmed

/-- In-memory `DirEntry` (src/filesystem.go).  `Size` is
`int64(DataLength)`; the `uint64 → int64 → uint64` round-trip in
`ReadFile` is the identity on `uint64`, so the value is kept as the
`DataLength` it encodes. -/
structure DirEntry where
  name : List Nat
  size : Nat
  isDir : Bool
  modTime : Option DateTime
  cluster : Nat
deriving DecidableEq

/-- Public `FileEntry` (no cluster field). -/
structure FileEntry where
  name : List Nat
  size : Nat
  isDir : Bool
  modTime : Option DateTime
deriving DecidableEq

/-- The `isDir && (cluster == 0 || cluster >= ReservedCluster)` coercion
applied to directory entries in `readDirectoryEntries`
(src/filesystem.go, lines 310–313). -/
def validateDirCluster (isDir : Bool) (c0 : Nat) : Nat :=
  if isDir ∧ (c0 = 0 ∨ 0xFFFFFFF8 ≤ c0) then 0 else c0

/-- The 32-byte-slot walk of `readDirectoryEntries` (src/filesystem.go,
lines 233–333).  `none` models the Go slice panic
`dirData[offset : offset+32]` when a 0x85 slot is the last one in the
buffer (this parser, unlike `readDirectory`, has no bounds check before
reading the stream extension slot), or fuel exhaustion (unreachable for
the supplied fuel, since every iteration advances `offset` by ≥ 32).
The two `binary.Read` error branches are dead: a 32-byte slice always
parses. -/
def dirEntriesLoop (dirData : List Nat) :
    Nat → Nat → Option (List DirEntry)
  | 0, _ => none
  | fuel + 1, offset =>
    if dirData.length < offset + 32 then some []
    else
      let t := byteVal (dirData.getD offset 0)
      if t = 0 then some []
      else if t ≠ 0x85 then dirEntriesLoop dirData fuel (offset + 32)
      else
        let fe := parseFileEntryRec (slot dirData offset)
        let off1 := offset + 32
        if dirData.length < off1 + 32 then none
        else
          let se := parseStreamExtRec (slot dirData off1)
          let np := nameLoop dirData se.nameLength (fe.secondaryCount - 1)
            (off1 + 32) []
          let fileName := finishName se.nameLength np.1
          match dirEntriesLoop dirData fuel np.2 with
          | none => none
          | some rest =>
            if fileName = [] then some rest
            else
              let isDir := fe.fileAttributes &&& 0x10 != 0
              let c1 := validateDirCluster isDir se.firstCluster
              if 0x10000000 < c1 then
                if isDir then
                  some (⟨fileName, se.dataLength, true,
                    exfatTimeToTime fe.lastModifiedTimestamp, 0⟩ :: rest)
                else some rest
              else
                some (⟨fileName, se.dataLength, isDir,
                  exfatTimeToTime fe.lastModifiedTimestamp, c1⟩ :: rest)

/-- The 32-byte-slot walk of `readDirectory` (src/filesystem.go, lines
354–442): same name assembly, but with a bounds check (`break`) before the
stream extension slot and no `FirstCluster` validation at all. -/
def dirListLoop (dirData : List Nat) :
    Nat → Nat → Option (List FileEntry)
  | 0, _ => none
  | fuel + 1, offset =>
    if dirData.length < offset + 32 then some []
    else
      let t := byteVal (dirData.getD offset 0)
      if t = 0 then some []
      else if t ≠ 0x85 then dirListLoop dirData fuel (offset + 32)
      else
        let fe := parseFileEntryRec (slot dirData offset)
        let off1 := offset + 32
        if dirData.length < off1 + 32 then some []
        else
          let se := parseStreamExtRec (slot dirData off1)
          let np := nameLoop dirData se.nameLength (fe.secondaryCount - 1)
            (off1 + 32) []
          let fileName := finishName se.nameLength np.1
          match dirListLoop dirData fuel np.2 with
          | none => none
          | some rest =>
            if fileName = [] then some rest
            else
              some (⟨fileName, se.dataLength,
                fe.fileAttributes &&& 0x10 != 0,
                exfatTimeToTime fe.lastModifiedTimestamp⟩ :: rest)

/-- `readDirectoryEntries` (src/filesystem.go): cluster guard, a
`16 * bytesPerCluster` chain read (`uint32` product), then the slot walk.
`dirData.length / 32 + 1` fuel covers every Go run (each iteration
consumes ≥ 32 bytes of the buffer). -/
def readDirectoryEntries (fs : ExFATFS) (cluster : Nat) :
    Option (Except Err (List DirEntry)) :=
  if cluster = 0 ∨ 0xFFFFFFF8 ≤ cluster ∨ 0x10000000 < cluster then
    some (.ok [])
  else
    match readClusterChain fs cluster (fs.bytesPerCluster * 16 % 4294967296)
      with
    | none => none
    | some (.error e) => some (.error e)
    | some (.ok dirData) =>
      (dirEntriesLoop dirData (dirData.length / 32 + 1) 0).map .ok

/-- `readDirectory` (src/filesystem.go): identical guard and chain read,
then the `FileEntry` slot walk. -/
def readDirectory (fs : ExFATFS) (cluster : Nat) :
    Option (Except Err (List FileEntry)) :=
  if cluster = 0 ∨ 0xFFFFFFF8 ≤ cluster ∨ 0x10000000 < cluster then
    some (.ok [])
  else
    match readClusterChain fs cluster (fs.bytesPerCluster * 16 % 4294967296)
      with
    | none => none
    | some (.error e) => some (.error e)
    | some (.ok dirData) =>
      (dirListLoop dirData (dirData.length / 32 + 1) 0).map .ok

/-!
## Path resolution (`getEntry`, `ListDir`, `ReadFile`, src/filesystem.go)

Paths are Go strings, i.e. byte lists; `/` is byte 47, `\` is byte 92.
-/

/-- `strings.Split(s, "/")` (never returns an empty list). -/
def splitOn (sep : Nat) : List Nat → List (List Nat)
  | [] => [[]]
  | c :: rest =>
    if c = sep then [] :: splitOn sep rest
    else
      match splitOn sep rest with
      | [] => [[c]]
      | h :: t => (c :: h) :: t

/-- `strings.Trim(path, "/")`: strip leading and trailing 47s. -/
def trimSlashes (s : List Nat) : List Nat :=
  ((s.dropWhile (· = 47)).reverse.dropWhile (· = 47)).reverse

/-- `strings.EqualFold`, restricted to its ASCII behaviour (the spec notes
comparison is ASCII-case-insensitive; all names exercised here are ASCII
or compared byte-exactly). -/
def asciiFold (c : Nat) : Nat := if 65 ≤ c ∧ c ≤ 90 then c + 32 else c

def equalFold (s t : List Nat) : Bool :=
  s.map asciiFold = t.map asciiFold

/-- `normalizePath` (src/utils.go): backslashes to slashes, ensure a
leading slash. -/
def normalizePath (p : List Nat) : List Nat :=
  let p := p.map fun c => if c = 92 then 47 else c
  match p with
  | 47 :: _ => p
  | _ => 47 :: p

/-- Outcome of the `for _, entry := range dirEntries` search inside
`getEntry`'s segment loop (src/filesystem.go, lines 195–207). -/
inductive ScanResult where
  | final (e : DirEntry)
  | descend (c : Nat)
  | notFound

/-- That search: the first name match returns the entry when the segment
is the last one; otherwise the first matching directory is descended into
and matching files are passed over. -/
def scanEntries (part : List Nat) (isLast : Bool) :
    List DirEntry → ScanResult
  | [] => .notFound
  | e :: rest =>
    if equalFold e.name part then
      if isLast then .final e
      else if e.isDir then .descend e.cluster
      else scanEntries part isLast rest
    else scanEntries part isLast rest

/-- The `for i, part := range parts` loop of `getEntry`
(src/filesystem.go, lines 184–214), including the trailing
`failed to resolve path` return reached when the loop runs out of
segments.  `i == len(parts)-1` is exactly `rest = []`. -/
def getEntryGo (fs : ExFATFS) : Nat → List (List Nat) →
    Option (Except Err DirEntry)
  | _, [] => some (.error .failedToResolve)
  | cluster, part :: rest =>
    if part = [] then getEntryGo fs cluster rest
    else
      match readDirectoryEntries fs cluster with
      | none => none
      | some (.error e) => some (.error e)
      | some (.ok entries) =>
        match scanEntries part rest.isEmpty entries with
        | .final e => some (.ok e)
        | .descend c => getEntryGo fs c rest
        | .notFound => some (.error .pathNotFound)

/-- The synthetic root entry (`Name: "/", IsDir: true`); `Size` and
`ModTime` take their Go zero values. -/
def rootDirEntry (fs : ExFATFS) : DirEntry :=
  ⟨[47], 0, true, none, fs.rootCluster⟩

/-- `getEntry` (src/filesystem.go). -/
def getEntry (fs : ExFATFS) (path : List Nat) :
    Option (Except Err DirEntry) :=
  let parts := splitOn 47 (trimSlashes path)
  if parts.length = 1 ∧ parts.getD 0 [] = [] then
    some (.ok (rootDirEntry fs))
  else getEntryGo fs fs.rootCluster parts

/-- `ReadFile` (src/filesystem.go): resolve, reject directories, read the
cluster chain with the entry's size. -/
def readFile (fs : ExFATFS) (path : List Nat) :
    Option (Except Err (List Nat)) :=
  match getEntry fs path with
  | none => none
  | some (.error e) => some (.error e)
  | some (.ok e) =>
    if e.isDir then some (.error .isDirectory)
    else readClusterChain fs e.cluster e.size

/-- `ListDir` (src/filesystem.go): normalize, root goes straight to the
root directory, other paths resolve and must be directories. -/
def listDir (fs : ExFATFS) (path : List Nat) :
    Option (Except Err (List FileEntry)) :=
  let path := normalizePath path
  if path = [47] ∨ path = [] then readDirectory fs fs.rootCluster
  else
    match getEntry fs path with
    | none => none
    | some (.error e) => some (.error e)
    | some (.ok e) =>
      if ¬ e.isDir then some (.error .notADirectory)
      else readDirectory fs e.cluster

/-!
## VHD container layer (src/unnamed/part_000)

The container file is a finite byte list; `os.File` reads past the end
fail with `io.EOF`.  VHD headers are big-endian.
-/

/-- The `VHDHeader` fields consumed by `OpenVHDFile` and `ReadAt`:
`Cookie` (offset 0), `DataOffset` (offset 16, BE64), `CurrentSize`
(offset 48, BE64), `DiskType` (offset 60, BE32). -/
structure VHDHeaderRec where
  cookie : List Nat
  dataOffset : Nat
  currentSize : Nat
  diskType : Nat
deriving DecidableEq

def parseVHDHeaderRec (b : List Nat) : VHDHeaderRec :=
  ⟨(b.take 8).map byteVal, be64 b 16, be64 b 48, be32 b 60⟩

/-- "conectix" as bytes. -/
def conectix : List Nat := [99, 111, 110, 101, 99, 116, 105, 120]

/-- "cxsparse" as bytes. -/
def cxsparse : List Nat := [99, 120, 115, 112, 97, 114, 115, 101]

/-- "EXFAT   " as bytes. -/
def exfatSig : List Nat := [69, 88, 70, 65, 84, 32, 32, 32]

/-- A `Seek` + exact `binary.Read` of `n` bytes: fails on a negative
offset or a short read. -/
def readFullAt (file : List Nat) (off : Int) (n : Nat) :
    Option (List Nat) :=
  if off < 0 then none
  else if file.length < off.toNat + n then none
  else some ((file.drop off.toNat).take n)

/-- `readVHDHeaderAt` (src/unnamed/part_000): parse 512 bytes and check
the "conectix" cookie. -/
def readVHDHeaderAt (file : List Nat) (off : Int) : Option VHDHeaderRec :=
  match readFullAt file off 512 with
  | none => none
  | some b =>
    let h := parseVHDHeaderRec b
    if h.cookie = conectix then some h else none

/-- `tryReadVHDHeader` (src/unnamed/part_000): footer at the end, then at
the head. -/
def tryReadVHDHeader (file : List Nat) : Option VHDHeaderRec :=
  match readVHDHeaderAt file ((file.length : Int) - 512) with
  | some h => some h
  | none => readVHDHeaderAt file 0

/-- The `VHDDynamicHeader` fields consumed after parsing: `TableOffset`
(offset 16, BE64), `MaxTableEntries` (offset 28, BE32), `BlockSize`
(offset 32, BE32). -/
structure DynHeaderRec where
  tableOffset : Nat
  maxTableEntries : Nat
  blockSize : Nat
deriving DecidableEq

/-- `readDynamicHeader` (src/unnamed/part_000): read 1024 bytes at
`DataOffset`, check "cxsparse", then read the BAT
(`MaxTableEntries` big-endian u32s at `TableOffset`).  `none` is any of
its error returns. -/
def readDynamicHeader (file : List Nat) (h : VHDHeaderRec) :
    Option (DynHeaderRec × List Nat) :=
  match readFullAt file (h.dataOffset : Int) 1024 with
  | none => none
  | some b =>
    if (b.take 8).map byteVal ≠ cxsparse then none
    else
      let d : DynHeaderRec := ⟨be64 b 16, be32 b 28, be32 b 32⟩
      match readFullAt file (d.tableOffset : Int) (4 * d.maxTableEntries)
        with
      | none => none
      | some tb =>
        some (d, (List.range d.maxTableEntries).map fun i => be32 tb (4 * i))

/-- In-memory `VHDFile` (src/filesystem.go struct section). -/
structure VHDFileRec where
  file : List Nat
  header : VHDHeaderRec
  bat : List Nat
  blockSize : Nat
  isDynamic : Bool
deriving DecidableEq

/-- `OpenVHDFile`'s failure modes. -/
inductive OpenErr where
  | unsupportedDiskType (d : Nat)
  | dynamicHeaderFailed
  | invalidFormat
deriving DecidableEq

/-- `isExFATBootSector` (src/unnamed/part_000). -/
def isExFATBootSector (data : List Nat) : Bool :=
  11 ≤ data.length ∧ ((data.drop 3).take 8).map byteVal = exfatSig

/-- `createPseudoVHD` (src/unnamed/part_000): fixed pseudo-header with the
"rawdisk" cookie (7 bytes plus a zero in the 8-byte array). -/
def createPseudoVHD (file : List Nat) : VHDFileRec :=
  ⟨file, ⟨[114, 97, 119, 100, 105, 115, 107, 0], 0, file.length, 2⟩,
    [], 0, false⟩

/-- `tryOpenAsRawDisk` (src/unnamed/part_000): a 512-byte boot sector
read, then the exFAT signature check. -/
def tryOpenAsRawDisk (file : List Nat) : Except OpenErr VHDFileRec :=
  match readFullAt file 0 512 with
  | none => .error .invalidFormat
  | some bootSector =>
    if isExFATBootSector bootSector then .ok (createPseudoVHD file)
    else .error .invalidFormat

/-- `OpenVHDFile` (src/unnamed/part_000): footer detection, then the
`DiskType` switch (2 fixed, 3 dynamic after a successful dynamic-header
load, otherwise `unsupported disk type`), with the raw-image fallback when
no footer parses. -/
def openVHDFile (file : List Nat) : Except OpenErr VHDFileRec :=
  match tryReadVHDHeader file with
  | some h =>
    if h.diskType = 2 then .ok ⟨file, h, [], 0, false⟩
    else if h.diskType = 3 then
      match readDynamicHeader file h with
      | some (d, bat) => .ok ⟨file, h, bat, d.blockSize, true⟩
      | none => .error .dynamicHeaderFailed
    else .error (.unsupportedDiskType h.diskType)
  | none => tryOpenAsRawDisk file

/-- `io.EOF`, the only read error a finite in-memory file produces. -/
inductive ReadErr where
  | eofErr
deriving DecidableEq

/-- `os.File.ReadAt` buffer filling: bytes available at `off` overwrite
the front of `buf`; the rest of `buf` keeps its caller-provided
contents. -/
def fileReadFill (file : List Nat) (off : Nat) (buf : List Nat) :
    List Nat :=
  ((file.drop off).take buf.length) ++
    buf.drop (min buf.length (file.length - off))

/-- The block-by-block loop of `VHDFile.ReadAt` (src/unnamed/part_000,
lines 172–206) for dynamic containers.  Returns the final buffer contents,
the byte count and the error (`io.EOF` past the BAT).  Each iteration
consumes `toRead ≥ 1` bytes of `buf` when `blockSize ≥ 1`, so
`buf.length + 1` fuel covers all Go runs; `none` marks the
division-by-zero panic of `blockSize = 0`.  A short read of an allocated
block returns `io.EOF` from `file.ReadAt`, which the source ignores.
The `uint32(offset / blockSize)` and `uint32(len(v.bat))` casts are
dropped: the BAT holds `MaxTableEntries < 2^32` entries and the block
index is compared before any wrap could matter for offsets addressing a
`CurrentSize < 2^32 * blockSize` disk. -/
def vhdReadAtLoop (v : VHDFileRec) :
    Nat → List Nat → Nat → Option (List Nat × Nat × Option ReadErr)
  | 0, _, _ => none
  | fuel + 1, buf, offset =>
    if buf = [] then some ([], 0, none)
    else
      let blockIndex := offset / v.blockSize
      let blockOffset := offset % v.blockSize
      if v.bat.length ≤ blockIndex then some (buf, 0, some .eofErr)
      else
        let remaining := v.blockSize - blockOffset
        let toRead := if buf.length < remaining then buf.length
          else remaining
        let chunk :=
          if v.bat.getD blockIndex 0 = 0xFFFFFFFF then
            List.replicate toRead 0
          else
            fileReadFill v.file (v.bat.getD blockIndex 0 * 512 + blockOffset)
              (buf.take toRead)
        match vhdReadAtLoop v fuel (buf.drop toRead) (offset + toRead) with
        | none => none
        | some (rest, n, e) => some (chunk ++ rest, toRead + n, e)

/-- `VHDFile.ReadAt` (src/unnamed/part_000): direct file read for fixed
containers, the BAT loop for dynamic ones. -/
def vhdReadAt (v : VHDFileRec) (buf : List Nat) (offset : Nat) :
    Option (List Nat × Nat × Option ReadErr) :=
  if ¬ v.isDynamic then
    some (fileReadFill v.file offset buf,
      min buf.length (v.file.length - offset),
      if buf.length ≤ v.file.length - offset then none else some .eofErr)
  else vhdReadAtLoop v (buf.length + 1) buf offset

/-!
## Concrete fixtures

Small concrete filesystems used as witnesses and counterexamples:
32-byte clusters, cluster heap at offset 0, root directory at cluster 2,
an empty FAT (so `nextValidCluster` always falls back to `c + 1`).
-/

/-- 0x85 file entry: `SecondaryCount = 2`, file attributes (a file). -/
def slotFile : List Nat := 0x85 :: 2 :: List.replicate 30 0

/-- 0x85 file entry: `SecondaryCount = 2`, attribute 0x10 (a directory). -/
def slotDir : List Nat := [0x85, 2, 0, 0, 0x10, 0] ++ List.replicate 26 0

/-- 0xC0 stream extension: `NameLength`, `FirstCluster` (LE32 bytes),
`DataLength = 1`. -/
def slotStream (nameLength : Nat) (fc : List Nat) : List Nat :=
  [0xC0, 0, 0, nameLength] ++ List.replicate 16 0 ++ fc ++
    [1, 0, 0, 0, 0, 0, 0, 0]

/-- 0xC1 name entry carrying the given 30 bytes of UTF-16LE payload. -/
def slotName (payload : List Nat) : List Nat := 0xC1 :: 0 :: payload

/-- A filesystem whose root directory holds the given three slots, with one
byte of file content (0x5A) at cluster 18 (heap offset 512). -/
def mkFS (slots : List Nat) : ExFATFS :=
  ⟨fun i => (slots ++ List.replicate (512 - slots.length) 0 ++ [0x5A]).getD
    i 0, [], 32, 0, 100, 2⟩

/-- Fixture: a single file named "A" (`NameLength 1`) at cluster 18. -/
def fsA : ExFATFS :=
  mkFS (slotFile ++ slotStream 1 [18, 0, 0, 0] ++
    slotName ([65, 0] ++ List.replicate 28 0))

/-- The entry `getEntry` returns for `/A` on `fsA`. -/
def entryA : DirEntry := ⟨[65], 1, false, none, 18⟩

/-- The UTF-16 code units of `日本語テスト.bin` (10 units, no surrogates). -/
def nihongoUnits : List Nat :=
  [0x65E5, 0x672C, 0x8A9E, 0x30C6, 0x30B9, 0x30C8, 0x2E, 0x62, 0x69, 0x6E]

/-- Its UTF-16LE byte serialisation (20 bytes) plus 10 bytes of NUL
padding, filling one name slot. -/
def nihongoPayload : List Nat :=
  nihongoUnits.flatMap (fun u => [u % 256, u / 256]) ++ List.replicate 10 0

/-- Fixture: a single file named `日本語テスト.bin` (`NameLength 10`) at
cluster 18. -/
def fsU : ExFATFS :=
  mkFS (slotFile ++ slotStream 10 [18, 0, 0, 0] ++ slotName nihongoPayload)

/-- Fixture: a file named "B" whose stream extension records the absurd
`FirstCluster = 0x10000001`. -/
def fsB : ExFATFS :=
  mkFS (slotFile ++ slotStream 1 [1, 0, 0, 0x10] ++
    slotName ([66, 0] ++ List.replicate 28 0))

/-- Fixture: a directory named "D" with the same absurd
`FirstCluster = 0x10000001`. -/
def fsD : ExFATFS :=
  mkFS (slotDir ++ slotStream 1 [1, 0, 0, 0x10] ++
    slotName ([68, 0] ++ List.replicate 28 0))

/-- Fixture for early chain termination: 3 total clusters, cluster bytes
all 1, so a 64-byte read of cluster 2 stops after one 32-byte cluster. -/
def fsE : ExFATFS := ⟨fun i => if i < 32 then 1 else 0, [], 32, 0, 3, 2⟩

/-!
## Claim C2: `read_file` length equals the resolved entry size
-/

/-- Claim C2: for every valid path that resolves to a file, a successful
`ReadFile` returns a byte slice whose length equals the size field of the
entry `getEntry` returns for that path (the `DataLength` recorded in the
stream extension entry). -/
theorem readFile_length_eq_entry_size (fs : ExFATFS) (path : List Nat)
    (e : DirEntry) (bs : List Nat)
    (hg : getEntry fs path = some (.ok e)) (hd : e.isDir = false)
    (hr : readFile fs path = some (.ok bs)) : bs.length = e.size := by
  unfold readFile at hr
  rw [hg] at hr
  simp only [hd, Bool.false_eq_true, if_false] at hr
  exact readClusterChain_length fs e.cluster e.size bs hr

/-- Equality of `Except` results is decidable componentwise. -/
instance {ε α : Type} [DecidableEq ε] [DecidableEq α] :
    DecidableEq (Except ε α)
  | .error a, .error b =>
    if h : a = b then .isTrue (by rw [h])
    else .isFalse (by intro hc; injection hc; exact h (by assumption))
  | .error _, .ok _ => .isFalse (by intro hc; injection hc)
  | .ok _, .error _ => .isFalse (by intro hc; injection hc)
  | .ok a, .ok b =>
    if h : a = b then .isTrue (by rw [h])
    else .isFalse (by intro hc; injection hc; exact h (by assumption))

set_option maxRecDepth 100000 in
/-- Witness for C2 on `fsA`: `/A` resolves to a 1-byte file whose read
returns exactly its contents. -/
theorem readFile_length_eq_entry_size_witness :
    getEntry fsA [47, 65] = some (.ok entryA) ∧
      readFile fsA [47, 65] = some (.ok [0x5A]) ∧
      ([0x5A] : List Nat).length = entryA.size :=
  ⟨rfl, rfl,
    readFile_length_eq_entry_size fsA [47, 65] entryA [0x5A] rfl rfl rfl⟩

/-!
## Claim C4: invalid start clusters (corrected: the size-0 early return
precedes the cluster check)
-/

/-- Counterexample to C4 as stated: with start cluster 0 and requested
size 0, `readClusterChain` succeeds with an empty buffer instead of
failing with `InvalidCluster` (the `size == 0` early return precedes the
cluster validation). -/
theorem readClusterChain_zero_size_counterexample :
    readClusterChain fsA 0 0 = some (.ok []) := rfl

/-- Claim C4 (amended): for every start cluster `c` with `c = 0` or
`c ≥ 0xFFFFFFF8` and every requested size greater than zero, the
cluster-chain read fails with `InvalidCluster`; a size-0 request returns
an empty buffer successfully before the cluster is examined. -/
theorem readClusterChain_invalid_cluster (fs : ExFATFS) (c n : Nat)
    (hc : c = 0 ∨ 0xFFFFFFF8 ≤ c) (hn : 0 < n) :
    readClusterChain fs c n = some (.error .invalidCluster) := by
  unfold readClusterChain
  rw [if_neg (by omega), if_pos hc]

/-- Witness for the amended C4: start cluster 0 with size 1 fails. -/
theorem readClusterChain_invalid_cluster_witness :
    readClusterChain fsA 0 1 = some (.error .invalidCluster) :=
  readClusterChain_invalid_cluster fsA 0 1 (Or.inl rfl) Nat.one_pos

/-!
## Claim C6: `nextValidCluster`
-/

/-- Claim C6: for every cluster number `c` (any value below the
end-of-chain sentinel 0xFFFFFFFF), `nextValidCluster` returns `fat[c]`
when `c` is within FAT bounds and `fat[c]` is a valid chain link
(2 ≤ fat[c] ≤ 0x10000000, and in particular fat[c] < 0xFFFFFFF8); in
every other case it returns `c + 1`. -/
theorem nextValidCluster_spec (fs : ExFATFS) (c : Nat)
    (hc : c < 0xFFFFFFFF) :
    nextValidCluster fs c =
      if c < fs.fat.length ∧ 2 ≤ fs.fat.getD c 0 ∧
          fs.fat.getD c 0 ≤ 0x10000000 ∧ fs.fat.getD c 0 < 0xFFFFFFF8 then
        fs.fat.getD c 0
      else c + 1 := by
  simp only [nextValidCluster]
  split
  · rename_i hlen
    rw [if_neg (by omega), Nat.mod_eq_of_lt (by omega)]
  · rename_i hlen
    split
    · rename_i hbad
      rw [if_neg (by omega), Nat.mod_eq_of_lt (by omega)]
    · rename_i hgood
      rw [if_pos (by omega)]

/-- Witness for C6: `fsA` has an empty FAT, so cluster 5 falls back to
the contiguous successor 6. -/
theorem nextValidCluster_spec_witness : nextValidCluster fsA 5 = 6 := by
  have h := nextValidCluster_spec fsA 5 (by omega)
  simpa using h

/-!
## Claim C9: successful chain reads return exactly `size` bytes, with a
zero tail on early termination
-/

/-- Claim C9: a successful cluster-chain read always returns exactly
`size` bytes; concretely on `fsE` (3 total clusters), a 64-byte read of
cluster 2 stops after one 32-byte cluster because the next cluster
reaches `totalClusters`, and the unread tail comes back as zero bytes
rather than an error or a shorter buffer. -/
theorem readClusterChain_size_exact :
    (∀ (fs : ExFATFS) (c n : Nat) (bs : List Nat),
      readClusterChain fs c n = some (.ok bs) → bs.length = n) ∧
    readClusterChain fsE 2 64 =
      some (.ok (List.replicate 32 1 ++ List.replicate 32 0)) :=
  ⟨readClusterChain_length, by decide⟩

/-- Witness for C9: the early-terminated read on `fsE` has length 64. -/
theorem readClusterChain_size_exact_witness :
    (List.replicate 32 1 ++ List.replicate 32 0 : List Nat).length = 64 :=
  readClusterChain_size_exact.1 fsE 2 64 _
    readClusterChain_size_exact.2

/-!
## Claim C1: file-name reassembly

The parsers compare and truncate against `NameLength` using the Go byte
length of the UTF-8 string (`len(fileName)`, `fileName[:nameLength]`),
not UTF-16 code units, so a multi-byte name is cut mid-rune.
-/

set_option maxRecDepth 100000 in
/-- Claim C1, evaluated at the failing input: for the file
`日本語テスト.bin` (NameLength 10), `ListDir("/")` returns the name
truncated to the first 10 bytes of its UTF-8 encoding — ending in a bare
lead byte 0xE3 — rather than the full name the claim (and the spec's seed
scenario) requires. -/
theorem listDir_unicode_name_mangled :
    listDir fsU [47] =
      some (.ok [⟨(utf8Encode nihongoUnits).take 10, 1, false, none⟩]) ∧
    (utf8Encode nihongoUnits).take 10 ≠ utf8Encode nihongoUnits := by
  constructor
  · rfl
  · decide

/-!
## Claim C3: FirstCluster validation (corrected: only
`readDirectoryEntries` validates; `readDirectory`, used by `ListDir`,
returns such file entries)
-/

theorem dirEntriesLoop_cluster_le (dirData : List Nat) :
    ∀ fuel offset r, dirEntriesLoop dirData fuel offset = some r →
      ∀ e ∈ r, e.cluster ≤ 0x10000000 := by
  intro fuel
  induction fuel with
  | zero =>
    intro offset r h
    exact absurd h (by simp [dirEntriesLoop])
  | succ n ih =>
    intro offset r h e he
    simp only [dirEntriesLoop] at h
    split at h
    · cases h; cases he
    · split at h
      · cases h; cases he
      · split at h
        · exact ih _ _ h e he
        · split at h
          · cases h
          · split at h
            · cases h
            · rename_i rest hrest
              split at h
              · cases h; exact ih _ _ hrest e he
              · split at h
                · split at h
                  · cases h
                    rcases List.mem_cons.mp he with he | he
                    · subst he; exact Nat.zero_le _
                    · exact ih _ _ hrest e he
                  · cases h; exact ih _ _ hrest e he
                · rename_i hc1
                  cases h
                  rcases List.mem_cons.mp he with he | he
                  · subst he; exact Nat.le_of_not_lt hc1
                  · exact ih _ _ hrest e he

set_option maxRecDepth 100000 in
/-- Counterexample to C3 as stated: on `fsB`, whose only entry is a file
with `FirstCluster = 0x10000001`, `readDirectoryEntries` (used by
`getEntry`) discards the entry, but `ListDir("/")` — which parses with
`readDirectory`, a routine with no FirstCluster validation — still
returns it. -/
theorem listDir_keeps_big_cluster_file :
    listDir fsB [47] = some (.ok [⟨[66], 1, false, none⟩]) ∧
      readDirectoryEntries fsB 2 = some (.ok []) := ⟨rfl, rfl⟩

set_option maxRecDepth 100000 in
/-- Claim C3 (amended): the FirstCluster validation lives only in
`readDirectoryEntries` (the parser behind `getEntry`): every entry it
returns has cluster ≤ 0x10000000 — directories with a larger FirstCluster
are returned with cluster coerced to 0, files are discarded — while
`readDirectory` (the parser behind `list_dir`) applies no cluster
validation and returns such file entries (without any cluster field). -/
theorem readDirectoryEntries_cluster_validation :
    (∀ (fs : ExFATFS) (c : Nat) (r : List DirEntry) (e : DirEntry),
      readDirectoryEntries fs c = some (.ok r) → e ∈ r →
        e.cluster ≤ 0x10000000) ∧
    readDirectoryEntries fsD 2 = some (.ok [⟨[68], 1, true, none, 0⟩]) := by
  constructor
  · intro fs c r e h he
    unfold readDirectoryEntries at h
    split at h
    · simp only [Option.some.injEq, Except.ok.injEq] at h
      subst h
      cases he
    · split at h
      · exact absurd h (by simp)
      · exact absurd h (by simp)
      · simp only [Option.map_eq_some'] at h
        obtain ⟨a, ha, hak⟩ := h
        simp only [Except.ok.injEq] at hak
        subst hak
        exact dirEntriesLoop_cluster_le _ _ _ _ ha e he
  · rfl

/-- Witness for the amended C3: the invariant applied to the entry that
`readDirectoryEntries` returns for the big-cluster directory on `fsD`. -/
theorem readDirectoryEntries_cluster_validation_witness :
    (⟨[68], 1, true, none, 0⟩ : DirEntry).cluster ≤ 0x10000000 :=
  readDirectoryEntries_cluster_validation.1 fsD 2
    [⟨[68], 1, true, none, 0⟩] ⟨[68], 1, true, none, 0⟩
    readDirectoryEntries_cluster_validation.2 (by simp)

/-!
## Claim C5: unallocated dynamic-VHD blocks read as zero
-/

/-- Claim C5: for every dynamic container and every read whose offset
range lies within a single block whose BAT entry is the sentinel
0xFFFFFFFF (with the block index below the BAT length), `ReadAt` fills
all requested bytes with zeros and reports them as successfully read. -/
theorem vhdReadAt_unallocated_zero (v : VHDFileRec) (buf : List Nat)
    (offset : Nat) (hdyn : v.isDynamic = true) (hbs : 0 < v.blockSize)
    (hbat : offset / v.blockSize < v.bat.length)
    (hsent : v.bat.getD (offset / v.blockSize) 0 = 0xFFFFFFFF)
    (hfit : offset % v.blockSize + buf.length ≤ v.blockSize) :
    vhdReadAt v buf offset =
      some (List.replicate buf.length 0, buf.length, none) := by
  have h1 : vhdReadAt v buf offset =
      vhdReadAtLoop v (buf.length + 1) buf offset := by
    simp [vhdReadAt, hdyn]
  rw [h1]
  rcases hb : buf with _ | ⟨b, bs⟩
  · simp [vhdReadAtLoop]
  · subst hb
    have hrem : (b :: bs).length ≤ v.blockSize - offset % v.blockSize := by
      have := Nat.mod_lt offset hbs
      omega
    simp only [vhdReadAtLoop]
    rw [if_neg (by simp)]
    rw [if_neg (Nat.not_le.mpr hbat)]
    have htoRead :
        (if (b :: bs).length < v.blockSize - offset % v.blockSize then
          (b :: bs).length else v.blockSize - offset % v.blockSize) =
        (b :: bs).length := by
      split <;> omega
    rw [if_pos hsent, htoRead, List.drop_length]
    simp

/-- Witness for C5: a 3-byte read of block 0 (BAT entry 0xFFFFFFFF) on a
concrete dynamic container returns 3 zero bytes. -/
theorem vhdReadAt_unallocated_zero_witness :
    vhdReadAt ⟨[], ⟨conectix, 0, 0, 3⟩, [0xFFFFFFFF], 16, true⟩ [7, 7, 7] 0 =
      some ([0, 0, 0], 3, none) :=
  vhdReadAt_unallocated_zero ⟨[], ⟨conectix, 0, 0, 3⟩, [0xFFFFFFFF], 16,
    true⟩ [7, 7, 7] 0 rfl (by decide) (by decide) (by decide) (by decide)

/-!
## Claim C8: `OpenVHDFile` disk-type dispatch (corrected: DiskType 3 only
succeeds when the dynamic header also loads)
-/

/-- A 512-byte VHD footer with a valid "conectix" cookie, DataOffset 0 and
the given DiskType, filling the whole container file. -/
def footerOnlyFile (diskType : Nat) : List Nat :=
  conectix ++ List.replicate 52 0 ++ [0, 0, 0, diskType] ++
    List.replicate 448 0

set_option maxRecDepth 10000 in
/-- Counterexample to C8 as stated: this 512-byte file carries a valid
footer with DiskType 3, yet `OpenVHDFile` fails (the dynamic-header read
at DataOffset 0 finds no "cxsparse" header) instead of succeeding as a
dynamic container. -/
theorem openVHDFile_diskType3_can_fail :
    tryReadVHDHeader (footerOnlyFile 3) =
      some (parseVHDHeaderRec (footerOnlyFile 3)) ∧
    (parseVHDHeaderRec (footerOnlyFile 3)).diskType = 3 ∧
    openVHDFile (footerOnlyFile 3) = .error .dynamicHeaderFailed :=
  ⟨rfl, rfl, rfl⟩

/-- Claim C8 (amended): once a valid VHD footer is found, `OpenVHDFile`
dispatches on DiskType: 2 opens as a fixed container, 3 proceeds as
dynamic and succeeds exactly when the dynamic header and BAT load
(failing with that error otherwise), and every other DiskType fails with
`unsupported disk type`. -/
theorem openVHDFile_diskType_dispatch (file : List Nat) (h : VHDHeaderRec)
    (hh : tryReadVHDHeader file = some h) :
    (h.diskType = 2 → openVHDFile file = .ok ⟨file, h, [], 0, false⟩) ∧
    (∀ d bat, h.diskType = 3 → readDynamicHeader file h = some (d, bat) →
      openVHDFile file = .ok ⟨file, h, bat, d.blockSize, true⟩) ∧
    (h.diskType ≠ 2 → h.diskType ≠ 3 →
      openVHDFile file = .error (.unsupportedDiskType h.diskType)) := by
  simp only [openVHDFile, hh]
  refine ⟨?_, ?_, ?_⟩
  · intro h2
    rw [if_pos h2]
  · intro d bat h3 hd
    rw [if_neg (by omega), if_pos h3, hd]
  · intro hn2 hn3
    rw [if_neg hn2, if_neg hn3]

set_option maxRecDepth 10000 in
/-- Witness for the amended C8: DiskType 2 opens fixed; DiskType 7 fails
with `unsupported disk type: 7`. -/
theorem openVHDFile_diskType_dispatch_witness :
    openVHDFile (footerOnlyFile 2) =
      .ok ⟨footerOnlyFile 2, parseVHDHeaderRec (footerOnlyFile 2), [], 0,
        false⟩ ∧
    openVHDFile (footerOnlyFile 7) =
      .error (.unsupportedDiskType 7) :=
  ⟨(openVHDFile_diskType_dispatch (footerOnlyFile 2)
      (parseVHDHeaderRec (footerOnlyFile 2)) rfl).1 rfl,
   (openVHDFile_diskType_dispatch (footerOnlyFile 7)
      (parseVHDHeaderRec (footerOnlyFile 7)) rfl).2.2 (by decide) (by decide)⟩

/-!
## Claim C10: the trailing `failed to resolve path` return of `getEntry`
is unreachable
-/

theorem readClusterChain_no_error (fs : ExFATFS) (c n : Nat)
    (h0 : c ≠ 0) (hr : c < 0xFFFFFFF8) (e : Err) :
    readClusterChain fs c n ≠ some (.error e) := by
  unfold readClusterChain
  split
  · simp
  · split
    · rename_i hcond
      rcases hcond with h | h
      · exact absurd h h0
      · exact absurd hr (by omega)
    · simp [Option.map_eq_some']

theorem readDirectoryEntries_no_error (fs : ExFATFS) (c : Nat) (e : Err) :
    readDirectoryEntries fs c ≠ some (.error e) := by
  unfold readDirectoryEntries
  split
  · simp
  · rename_i hguard
    push_neg at hguard
    split
    · simp
    · rename_i e' hchain
      exact absurd hchain
        (readClusterChain_no_error fs c _ hguard.1 (by omega) e')
    · simp [Option.map_eq_some']

theorem scanEntries_true_no_descend (part : List Nat) :
    ∀ (entries : List DirEntry) (c : Nat),
      scanEntries part true entries ≠ .descend c := by
  intro entries
  induction entries with
  | nil =>
    intro c h
    exact ScanResult.noConfusion h
  | cons x xs ih =>
    intro c h
    by_cases hf : equalFold x.name part
    · simp [scanEntries, hf] at h
    · simp only [scanEntries, hf, Bool.false_eq_true, if_false] at h
      exact ih c h

/-- The last path segment, if any, is non-empty. -/
def lastOK (parts : List (List Nat)) : Prop :=
  ∀ p, parts.getLast? = some p → p ≠ []

theorem splitOn_ne_nil (sep : Nat) : ∀ s : List Nat, splitOn sep s ≠ [] := by
  intro s
  cases s with
  | nil => simp [splitOn]
  | cons c rest =>
    unfold splitOn
    split
    · simp
    · split <;> simp

theorem dropWhile47_head (l : List Nat) (q : Nat)
    (h : (l.dropWhile (· = 47)).head? = some q) : q ≠ 47 := by
  induction l with
  | nil => simp [List.dropWhile] at h
  | cons c t ih =>
    by_cases hc : c = 47
    · rw [List.dropWhile_cons_of_pos (by simp [hc])] at h
      exact ih h
    · rw [List.dropWhile_cons_of_neg (by simp [hc])] at h
      simp at h
      omega

theorem trimSlashes_getLast (s : List Nat) (q : Nat)
    (h : (trimSlashes s).getLast? = some q) : q ≠ 47 := by
  unfold trimSlashes at h
  rw [List.getLast?_reverse] at h
  exact dropWhile47_head _ q h

theorem splitOn_lastOK : ∀ s : List Nat, s ≠ [] →
    (∀ q, s.getLast? = some q → q ≠ 47) → lastOK (splitOn 47 s) := by
  intro s
  induction s with
  | nil =>
    intro h
    exact absurd rfl h
  | cons c rest ih =>
    intro _ hq
    by_cases hc : c = 47
    · subst hc
      cases rest with
      | nil => exact absurd (hq 47 (by simp)) (by simp)
      | cons d t =>
        have hlast' : ∀ q, (d :: t).getLast? = some q → q ≠ 47 := by
          intro q hqq
          exact hq q (by rw [List.getLast?_cons_cons]; exact hqq)
        have hrec := ih (by simp) hlast'
        intro p hp
        apply hrec p
        rw [show splitOn 47 (47 :: d :: t) = [] :: splitOn 47 (d :: t) by
          simp [splitOn]] at hp
        obtain ⟨b, l, hbl⟩ : ∃ b l, splitOn 47 (d :: t) = b :: l := by
          cases hx : splitOn 47 (d :: t) with
          | nil => exact absurd hx (splitOn_ne_nil _ _)
          | cons b l => exact ⟨b, l, rfl⟩
        rw [hbl] at hp ⊢
        rw [List.getLast?_cons_cons] at hp
        exact hp
    · have hsplit : ∃ b l, splitOn 47 rest = b :: l := by
        cases hx : splitOn 47 rest with
        | nil => exact absurd hx (splitOn_ne_nil _ _)
        | cons b l => exact ⟨b, l, rfl⟩
      obtain ⟨b, l, hbl⟩ := hsplit
      have hform : splitOn 47 (c :: rest) = (c :: b) :: l := by
        unfold splitOn
        rw [if_neg hc, hbl]
      rw [hform]
      cases l with
      | nil =>
        intro p hp
        simp at hp
        subst hp
        simp
      | cons d t' =>
        have hrestne : rest ≠ [] := by
          intro hnil
          rw [hnil] at hbl
          simp [splitOn] at hbl
        cases rest with
        | nil => exact absurd rfl hrestne
        | cons e u =>
          have hlast' : ∀ q, (e :: u).getLast? = some q → q ≠ 47 := by
            intro q hqq
            exact hq q (by rw [List.getLast?_cons_cons]; exact hqq)
          have hrec := ih (by simp) hlast'
          intro p hp
          apply hrec p
          rw [hbl]
          rw [List.getLast?_cons_cons] at hp
          exact hp

theorem getEntryGo_cases (fs : ExFATFS) : ∀ (parts : List (List Nat))
    (cluster : Nat) (r : Except Err DirEntry), lastOK parts →
    getEntryGo fs cluster parts = some r →
    (∃ e, r = .ok e) ∨ r = .error .pathNotFound ∨
      (r = .error .failedToResolve ∧ parts = []) := by
  intro parts
  induction parts with
  | nil =>
    intro cluster r _ h
    simp only [getEntryGo, Option.some.injEq] at h
    exact Or.inr (Or.inr ⟨h.symm, rfl⟩)
  | cons part rest ih =>
    intro cluster r hlast h
    simp only [getEntryGo] at h
    split at h
    · -- empty segment: continue with the same cluster
      rename_i hpart
      cases rest with
      | nil =>
        exact absurd (hlast part (by simp)) (by simp [hpart])
      | cons d t =>
        have hlast' : lastOK (d :: t) := by
          intro p hp
          exact hlast p (by rw [List.getLast?_cons_cons]; exact hp)
        rcases ih cluster r hlast' h with h1 | h2 | ⟨_, h3⟩
        · exact Or.inl h1
        · exact Or.inr (Or.inl h2)
        · exact absurd h3 (by simp)
    · split at h
      · exact absurd h (by simp)
      · rename_i e' hdir
        exact absurd hdir (readDirectoryEntries_no_error fs cluster e')
      · rename_i entries hdir
        split at h
        · cases h
          exact Or.inl ⟨_, rfl⟩
        · rename_i c hscan
          cases rest with
          | nil =>
            exact absurd hscan (by
              have := scanEntries_true_no_descend part entries c
              simpa using this)
          | cons d t =>
            have hlast' : lastOK (d :: t) := by
              intro p hp
              exact hlast p (by rw [List.getLast?_cons_cons]; exact hp)
            rcases ih c r hlast' h with h1 | h2 | ⟨_, h3⟩
            · exact Or.inl h1
            · exact Or.inr (Or.inl h2)
            · exact absurd h3 (by simp)
        · cases h
          exact Or.inr (Or.inl rfl)

/-- Claim C10: whenever `getEntry` returns (the synthetic root entry, a
case-insensitively matched entry, or the `path not found` error from the
segment loop), the result is never the trailing
`failed to resolve path` return: after trimming and splitting on `/` the
segment list is all-empty only in the single-empty-segment case handled
by the root branch, so the loop always returns from within. -/
theorem getEntry_outcomes (fs : ExFATFS) (path : List Nat)
    (r : Except Err DirEntry) (h : getEntry fs path = some r) :
    (∃ e, r = .ok e) ∨ r = .error .pathNotFound := by
  simp only [getEntry] at h
  split at h
  · cases h
    exact Or.inl ⟨_, rfl⟩
  · rename_i hroot
    have hne : trimSlashes path ≠ [] := by
      intro hnil
      apply hroot
      rw [hnil]
      exact ⟨rfl, rfl⟩
    have hlast : lastOK (splitOn 47 (trimSlashes path)) :=
      splitOn_lastOK _ hne (trimSlashes_getLast path)
    rcases getEntryGo_cases fs _ _ _ hlast h with h1 | h2 | ⟨_, h3⟩
    · exact Or.inl h1
    · exact Or.inr h2
    · exact absurd h3 (splitOn_ne_nil _ _)

set_option maxRecDepth 100000 in
/-- Witness for C10: the resolution of `/A` on `fsA` lands in the
ok-entry disjunct. -/
theorem getEntry_outcomes_witness :
    (∃ e, (Except.ok entryA : Except Err DirEntry) = .ok e) ∨
      (Except.ok entryA : Except Err DirEntry) = .error .pathNotFound :=
  getEntry_outcomes fsA [47, 65] (.ok entryA) rfl

end GoExfat
